import Mathlib

/-!
Verification of the Legion Go controller plugin
(`src/hhd/device/legion_go/__init__.py`).

The development embeds, as executable Lean functions:
* the `SelectivePasshtrough` gate (its `produce` and `consume` methods and
  its mutable fields `state` and `to_disable`),
* the merge step of the `controller_loop_xinput` aggregation loop
  (the `fd_to_dev` / `to_run` bookkeeping and the per-device `produce` calls),
* the loop's pacing constants and end-of-iteration sleep,
* the outer supervisor's exception policy in `main`.

Mutable Python objects become explicit state passing: a method
`self.m(args)` of the gate becomes a Lean function
`(gateState, args) -> (gateState, result)`.
-/

/-- Events exchanged between sources and sinks: tagged records with a string
code.  Button events carry an optional boolean value; the gate reads it with
the dictionary lookup ev.get, defaulting to False when absent. -/
inductive Event where
  | button (code : String) (value : Option Bool)
  | axis (code : String) (value : Int)
  | configuration (code : String)
deriving DecidableEq

def Event.code : Event → String
  | .button c _ => c
  | .axis c _ => c
  | .configuration c => c

def Event.isButton : Event → Bool
  | .button _ _ => true
  | _ => false

def Event.isAxis : Event → Bool
  | .axis _ _ => true
  | _ => false

def Event.isConfiguration : Event → Bool
  | .configuration _ => true
  | _ => false

/-- The value the gate reads with ev.get, defaulting to False.  The gate only
evaluates it under an isButton guard, so the non-button cases are never
reached by the embedded control flow. -/
def Event.btnValue : Event → Bool
  | .button _ v => v.getD false
  | _ => false

/-- The mutable fields of the SelectivePasshtrough gate, together with its
configuration (the constructor arguments forward_buttons and passthrough).
The wrapped parent Source is left abstract: the gate's produce first calls
self.parent.produce(fds), and the embedding takes that returned batch as the
input of the pure transition function. -/
structure SelectivePasshtrough where
  forward_buttons : List String
  passthrough : List String
  state : Bool
  to_disable : List String
deriving DecidableEq

/-- One step of the scan loop "for ev in evs" inside produce: first the
modifier check updating self.state, then the if / elif chain building the
out accumulator and appending pressed non-passthrough button codes to
self.to_disable.  The accumulator is (state, out, to_disable). -/
def scanStep (fb pt : List String) (acc : Bool × List Event × List String)
    (ev : Event) : Bool × List Event × List String :=
  let st := if ev.isButton ∧ ev.code ∈ fb then ev.btnValue else acc.1
  if ev.isConfiguration then (st, acc.2.1 ++ [ev], acc.2.2)
  else if ev.isButton ∧ ev.code ∈ pt then (st, acc.2.1 ++ [ev], acc.2.2)
  else if ev.isButton ∧ ev.btnValue then (st, acc.2.1, acc.2.2 ++ [ev.code])
  else (st, acc.2.1, acc.2.2)

/-- The whole scan loop of produce, starting from the gate's current state,
an empty out accumulator, and the current to_disable list. -/
def scan (g : SelectivePasshtrough) (evs : List Event) :
    Bool × List Event × List String :=
  evs.foldl (scanStep g.forward_buttons g.passthrough) (g.state, [], g.to_disable)

/-- The synthesized release event appended at a RAW to FILTERED transition:
a dictionary with type button, the stored code and value False. -/
def mkRelease (c : String) : Event := .button c (some false)

/-- SelectivePasshtrough.produce, as a pure transition on the gate state:
scan the batch, then return, in order, the full batch when self.state holds
after the scan, the filtered accumulator plus synthesized releases (clearing
to_disable) when prev_state held but self.state no longer does, and the
filtered accumulator otherwise. -/
def SelectivePasshtrough.produce (g : SelectivePasshtrough) (evs : List Event) :
    SelectivePasshtrough × List Event :=
  let prev_state := g.state
  let s := scan g evs
  if s.1 then
    ({ g with state := s.1, to_disable := s.2.2 }, evs)
  else if prev_state then
    ({ g with state := s.1, to_disable := [] }, s.2.1 ++ s.2.2.map mkRelease)
  else
    ({ g with state := s.1, to_disable := s.2.2 }, s.2.1)

/-- Iterated produce over a list of input batches, returning the final gate
state and the per-batch outputs. -/
def produceRun (g : SelectivePasshtrough) :
    List (List Event) → SelectivePasshtrough × List (List Event)
  | [] => (g, [])
  | b :: bs =>
    let r := g.produce b
    let rest := produceRun r.1 bs
    (rest.1, r.2 :: rest.2)

/-- SelectivePasshtrough.consume forwards the batch to self.parent.consume
unchanged.  The parent Sink is modelled as the log of batches it has
received.  The gate state is returned so the embedding can express that
consume leaves it untouched. -/
def SelectivePasshtrough.consume (g : SelectivePasshtrough)
    (parentLog : List (List Event)) (events : List Event) :
    SelectivePasshtrough × List (List Event) :=
  (g, parentLog ++ [events])

/-- The fold computing the final value of self.state over a batch: only
button events whose code is among forward_buttons update it, to the value
read with ev.get. -/
def heldAfter (fb : List String) (st : Bool) (evs : List Event) : Bool :=
  evs.foldl (fun s ev => if ev.isButton ∧ ev.code ∈ fb then ev.btnValue else s) st

/-- The events the scan appends to the out accumulator: configuration
events and button events whose code is in the passthrough list, kept in
their original relative order. -/
def outFilter (pt : List String) (evs : List Event) : List Event :=
  evs.filter (fun ev => ev.isConfiguration || (ev.isButton && decide (ev.code ∈ pt)))

/-- The codes the scan appends to to_disable: codes of button events whose
read value is true and whose code is not in the passthrough list, in batch
order. -/
def trackedCodes (pt : List String) (evs : List Event) : List String :=
  (evs.filter
    (fun ev => ev.isButton && ev.btnValue && !decide (ev.code ∈ pt))).map Event.code

/-- A batch makes the gate leave RAW mode when self.state was true before
the scan and is false after it. -/
def isTransition (g : SelectivePasshtrough) (b : List Event) : Bool :=
  g.state && !(heldAfter g.forward_buttons g.state b)

/-- Index of the first batch of the run at which the gate performs a RAW to
FILTERED transition, if any. -/
def firstTransition (g : SelectivePasshtrough) : List (List Event) → Option Nat
  | [] => none
  | b :: bs =>
    if isTransition g b then some 0
    else (firstTransition (g.produce b).1 bs).map (fun n => n + 1)

/-- True when no batch of the run triggers a RAW to FILTERED transition. -/
def noTransRun (g : SelectivePasshtrough) : List (List Event) → Bool
  | [] => true
  | b :: bs => !isTransition g b && noTransRun (g.produce b).1 bs

/-- Number of tracked presses of code c across a run of batches. -/
def totalTracked (c : String) (pt : List String) (bs : List (List Event)) : Nat :=
  (bs.map (fun b => (trackedCodes pt b).count c)).sum

/-- A device registered by prepare in controller_loop_xinput: its Python
object identity id(d) and its produce method.  The concrete devices are
opaque collaborators, so produce is an abstract function of the ready
descriptor list. -/
structure Dev where
  idd : Nat
  prodFn : List Nat → List Event

/-- The set to_run of the loop body: the identities id(fd_to_dev[f]) for
the ready descriptors f, represented as a list whose membership is the set
membership the loop tests. -/
def toRun (fdOwner : Nat → Nat) (r : List Nat) : List Nat := r.map fdOwner

/-- The merge step of one loop iteration: "for d in devs: if id(d) in
to_run: evs.extend(d.produce(r))". -/
def loopProduce (devs : List Dev) (fdOwner : Nat → Nat) (r : List Nat) :
    List Event :=
  devs.foldl
    (fun evs d => if d.idd ∈ toRun fdOwner r then evs ++ d.prodFn r else evs) []

/-- The identities of the devices on which the merge step invokes produce,
in invocation order. -/
def loopCalls (devs : List Dev) (fdOwner : Nat → Nat) (r : List Nat) :
    List Nat :=
  devs.foldl
    (fun cs d => if d.idd ∈ toRun fdOwner r then cs ++ [d.idd] else cs) []

def REPORT_FREQ_MIN : ℚ := 25

def REPORT_FREQ_MAX : ℚ := 400

def REPORT_DELAY_MAX : ℚ := 1 / REPORT_FREQ_MIN

def REPORT_DELAY_MIN : ℚ := 1 / REPORT_FREQ_MAX

/-- Time spent blocked in select.select(fds, [], [], REPORT_DELAY_MAX):
the wait returns as soon as a descriptor is ready and no later than the
timeout. -/
def selectWait (nextReady : ℚ) : ℚ := min nextReady REPORT_DELAY_MAX

/-- The end-of-iteration sleep: if the elapsed time is below
REPORT_DELAY_MIN, sleep the remainder. -/
def iterSleep (elapsed : ℚ) : ℚ :=
  if elapsed < REPORT_DELAY_MIN then REPORT_DELAY_MIN - elapsed else 0

/-- Total duration of one loop iteration whose body took the given elapsed
time: the body plus the pacing sleep. -/
def iterDuration (elapsed : ℚ) : ℚ := elapsed + iterSleep elapsed

/-- Number of Sink consume calls an iteration performs on a merged batch:
the block guarded by "if evs:" calls d_ds5.consume, d_xinput.consume and
d_raw.consume, and is skipped entirely on an empty batch. -/
def sinkDispatches (evs : List Event) : Nat := if evs.isEmpty then 0 else 3

/-- Exceptions escaping a session, as the supervisor distinguishes them:
the user interrupt and everything matched by "except Exception". -/
inductive Exc where
  | keyboardInterrupt
  | error (msg : String)
deriving DecidableEq

/-- Whether Python's "except Exception" clause matches: KeyboardInterrupt
derives from BaseException, not Exception, so it is not matched. -/
def isException : Exc → Bool
  | .keyboardInterrupt => false
  | .error _ => true

/-- What the supervisor in main does after handling one escaped
exception. -/
inductive SupAction where
  | terminate
  | backoffRestart (delay : Nat)
deriving DecidableEq

def ERROR_DELAY : Nat := 5

/-- The exception handling of the while-True loop in main: errors matched
by "except Exception" sleep ERROR_DELAY and restart discovery; the
KeyboardInterrupt handler returns from main. -/
def supervisorHandle (e : Exc) : SupAction :=
  if isException e then .backoffRestart ERROR_DELAY else .terminate

/-- How controller_loop_xinput leaves on an exception raised in its body:
the finally block closes every registered device, and both the explicit
"except KeyboardInterrupt: raise" and the absence of any other handler
re-raise the exception unchanged. -/
structure LoopExit where
  closedAll : Bool
  raised : Option Exc
deriving DecidableEq

def controllerLoopExit (e : Exc) : LoopExit :=
  match e with
  | .keyboardInterrupt => { closedAll := true, raised := some .keyboardInterrupt }
  | .error m => { closedAll := true, raised := some (.error m) }

/-- The raw hidraw Source wrapped by the gate, reduced to the one bit the
close protocol touches. -/
structure RawParent where
  isOpen : Bool
deriving DecidableEq

/-- Modelled from the spec: close releases a Source's resources (the
wrapped GenericGamepadHidraw Source lives in hhd.controller, outside this
repository snapshot); closing the parent directly marks it closed. -/
def RawParent.close (p : RawParent) (ex : Bool) : RawParent × Bool :=
  (⟨false⟩, true)

/-- Modelled from the spec: the generic Producer base class
(hhd.controller.base, outside this repository snapshot) holds no reference
to a wrapped Source, so its close cannot release the parent's resources.
SelectivePasshtrough.close delegates to it via super().close(exit) instead
of calling self.parent.close(exit), so the wrapped parent is left as is. -/
def gateClose (p : RawParent) (ex : Bool) : RawParent × Bool := (p, false)

/-- Follows the spec's words, for comparison with the implementation: the
FILTERED-mode output the specification describes, namely all Configuration
events plus any Button or Axis event whose code is in the allow-list. -/
def specFilteredOutput (pt : List String) (evs : List Event) : List Event :=
  evs.filter
    (fun ev => ev.isConfiguration || ((ev.isButton || ev.isAxis) && decide (ev.code ∈ pt)))

theorem heldAfter_cons (fb : List String) (st : Bool) (ev : Event) (evs : List Event) :
    heldAfter fb st (ev :: evs)
      = heldAfter fb (if ev.isButton ∧ ev.code ∈ fb then ev.btnValue else st) evs := rfl

theorem outFilter_cons (pt : List String) (ev : Event) (evs : List Event) :
    outFilter pt (ev :: evs)
      = (if ev.isConfiguration || (ev.isButton && decide (ev.code ∈ pt)) then [ev] else [])
        ++ outFilter pt evs := by
  simp only [outFilter, List.filter_cons]
  split <;> simp_all

theorem trackedCodes_cons (pt : List String) (ev : Event) (evs : List Event) :
    trackedCodes pt (ev :: evs)
      = (if ev.isButton && ev.btnValue && !decide (ev.code ∈ pt) then [ev.code] else [])
        ++ trackedCodes pt evs := by
  simp only [trackedCodes, List.filter_cons]
  split <;> simp_all

theorem scan_foldl_eq (fb pt : List String) (evs : List Event) :
    ∀ st out td, evs.foldl (scanStep fb pt) (st, out, td) =
      (heldAfter fb st evs, out ++ outFilter pt evs, td ++ trackedCodes pt evs) := by
  induction evs with
  | nil => intro st out td; simp [heldAfter, outFilter, trackedCodes]
  | cons ev evs ih =>
    intro st out td
    rw [List.foldl_cons, heldAfter_cons, outFilter_cons, trackedCodes_cons]
    simp only [scanStep]
    by_cases h2 : ev.isConfiguration = true
    · rw [if_pos h2, ih]
      have hb : ev.isButton = false := by
        cases ev <;> simp_all [Event.isButton, Event.isConfiguration]
      simp [h2, hb, List.append_assoc]
    · rw [if_neg h2]
      by_cases h3 : ev.isButton = true ∧ ev.code ∈ pt
      · rw [if_pos h3, ih]
        have h2f : ev.isConfiguration = false := by simpa using h2
        simp [h2f, h3.1, h3.2, List.append_assoc]
      · rw [if_neg h3]
        have h2f : ev.isConfiguration = false := by simpa using h2
        by_cases h4 : ev.isButton = true ∧ ev.btnValue = true
        · rw [if_pos h4, ih]
          have hpt : ¬ (ev.code ∈ pt) := fun hm => h3 ⟨h4.1, hm⟩
          simp [h2f, h4.1, h4.2, hpt, List.append_assoc]
        · rw [if_neg h4, ih]
          by_cases hb : ev.isButton = true
          · have hpt : ¬ (ev.code ∈ pt) := fun hm => h3 ⟨hb, hm⟩
            have hv : ev.btnValue = false := by
              cases hvv : ev.btnValue
              · rfl
              · exact absurd ⟨hb, hvv⟩ h4
            simp [h2f, hb, hpt, hv]
          · have hb2 : ev.isButton = false := by simpa using hb
            simp [h2f, hb2]

theorem scan_eq (g : SelectivePasshtrough) (evs : List Event) :
    scan g evs = (heldAfter g.forward_buttons g.state evs,
      outFilter g.passthrough evs,
      g.to_disable ++ trackedCodes g.passthrough evs) := by
  unfold scan
  rw [scan_foldl_eq]
  simp

theorem produce_raw (g : SelectivePasshtrough) (evs : List Event)
    (h : heldAfter g.forward_buttons g.state evs = true) :
    g.produce evs
      = ({ g with
            state := true
            to_disable := g.to_disable ++ trackedCodes g.passthrough evs }, evs) := by
  unfold SelectivePasshtrough.produce
  rw [scan_eq]
  simp [h]

theorem produce_transition (g : SelectivePasshtrough) (evs : List Event)
    (h1 : g.state = true)
    (h2 : heldAfter g.forward_buttons g.state evs = false) :
    g.produce evs
      = ({ g with state := false, to_disable := [] },
         outFilter g.passthrough evs
           ++ (g.to_disable ++ trackedCodes g.passthrough evs).map mkRelease) := by
  unfold SelectivePasshtrough.produce
  rw [scan_eq]
  have h2t : heldAfter g.forward_buttons true evs = false := h1 ▸ h2
  simp [h1, h2t]

theorem produce_filtered (g : SelectivePasshtrough) (evs : List Event)
    (h1 : g.state = false)
    (h2 : heldAfter g.forward_buttons g.state evs = false) :
    g.produce evs
      = ({ g with
            state := false
            to_disable := g.to_disable ++ trackedCodes g.passthrough evs },
         outFilter g.passthrough evs) := by
  unfold SelectivePasshtrough.produce
  rw [scan_eq]
  have h2t : heldAfter g.forward_buttons false evs = false := h1 ▸ h2
  simp [h1, h2t]

theorem produceRun_cons (g : SelectivePasshtrough) (b : List Event)
    (bs : List (List Event)) :
    produceRun g (b :: bs)
      = ((produceRun (g.produce b).1 bs).1,
         (g.produce b).2 :: (produceRun (g.produce b).1 bs).2) := rfl

theorem isTransition_iff (g : SelectivePasshtrough) (b : List Event) :
    isTransition g b = true
      ↔ g.state = true ∧ heldAfter g.forward_buttons g.state b = false := by
  simp [isTransition, Bool.and_eq_true, Bool.not_eq_true']

theorem state_false_of_not_transition (g : SelectivePasshtrough) (b : List Event)
    (hT : isTransition g b = false)
    (hH : heldAfter g.forward_buttons g.state b = false) : g.state = false := by
  cases hs : g.state with
  | false => rfl
  | true =>
    exfalso
    have hH2 : heldAfter g.forward_buttons true b = false := hs ▸ hH
    unfold isTransition at hT
    rw [hs, hH2] at hT
    simp at hT

theorem produce_config_fields (g : SelectivePasshtrough) (evs : List Event) :
    (g.produce evs).1.forward_buttons = g.forward_buttons ∧
    (g.produce evs).1.passthrough = g.passthrough := by
  cases hH : heldAfter g.forward_buttons g.state evs with
  | false =>
    cases hst : g.state with
    | false => rw [produce_filtered g evs hst hH]; exact ⟨rfl, rfl⟩
    | true => rw [produce_transition g evs hst hH]; exact ⟨rfl, rfl⟩
  | true => rw [produce_raw g evs hH]; exact ⟨rfl, rfl⟩

theorem to_disable_produce_noTrans (g : SelectivePasshtrough) (b : List Event)
    (hT : isTransition g b = false) :
    (g.produce b).1.to_disable = g.to_disable ++ trackedCodes g.passthrough b := by
  cases hH : heldAfter g.forward_buttons g.state b with
  | false =>
    rw [produce_filtered g b (state_false_of_not_transition g b hT hH) hH]
  | true =>
    rw [produce_raw g b hH]

theorem to_disable_produce_trans (g : SelectivePasshtrough) (b : List Event)
    (hT : isTransition g b = true) :
    (g.produce b).1.to_disable = [] := by
  obtain ⟨hst, hH⟩ := (isTransition_iff g b).mp hT
  rw [produce_transition g b hst hH]

theorem mem_release_of_transition (g : SelectivePasshtrough) (b : List Event)
    (c : String) (hT : isTransition g b = true)
    (hc : c ∈ g.to_disable ++ trackedCodes g.passthrough b) :
    mkRelease c ∈ (g.produce b).2 := by
  obtain ⟨hst, hH⟩ := (isTransition_iff g b).mp hT
  rw [produce_transition g b hst hH]
  exact List.mem_append_right _ (List.mem_map_of_mem _ hc)

theorem release_run (bs : List (List Event)) :
    ∀ g c k, c ∈ g.to_disable → firstTransition g bs = some k →
      mkRelease c ∈ ((produceRun g bs).2.getD k []) := by
  induction bs with
  | nil => intro g c k _ hk; simp [firstTransition] at hk
  | cons b bs ih =>
    intro g c k hc hk
    unfold firstTransition at hk
    by_cases hT : isTransition g b = true
    · rw [if_pos hT] at hk
      obtain rfl : (0 : Nat) = k := Option.some_inj.mp hk
      rw [produceRun_cons]
      simp only [List.getD_cons_zero]
      exact mem_release_of_transition g b c hT (List.mem_append_left _ hc)
    · rw [if_neg hT] at hk
      have hTf : isTransition g b = false := by simpa using hT
      cases hft : firstTransition (g.produce b).1 bs with
      | none => rw [hft] at hk; simp at hk
      | some j =>
        rw [hft] at hk
        obtain rfl : j + 1 = k := by simpa using hk
        have hc1 : c ∈ (g.produce b).1.to_disable := by
          rw [to_disable_produce_noTrans g b hTf]
          exact List.mem_append_left _ hc
        have := ih (g.produce b).1 c j hc1 hft
        rw [produceRun_cons]
        simpa only [List.getD_cons_succ] using this

theorem trackedCodes_not_passthrough (pt : List String) (evs : List Event)
    (c : String) (h : c ∈ trackedCodes pt evs) : c ∉ pt := by
  unfold trackedCodes at h
  obtain ⟨ev, hev, hc⟩ := List.mem_map.mp h
  have hp := List.of_mem_filter hev
  subst hc
  intro hmem
  simp [hmem] at hp

theorem mkRelease_injective : Function.Injective mkRelease := by
  intro a b h
  simpa [mkRelease] using h

theorem mkRelease_not_mem_outFilter (pt : List String) (evs : List Event)
    (c : String) (h : c ∉ pt) : mkRelease c ∉ outFilter pt evs := by
  intro hm
  have hp := List.of_mem_filter hm
  simp [mkRelease, Event.isConfiguration, Event.isButton, Event.code, h] at hp

theorem totalTracked_cons (c : String) (pt : List String) (b : List Event)
    (bs : List (List Event)) :
    totalTracked c pt (b :: bs)
      = (trackedCodes pt b).count c + totalTracked c pt bs := by
  simp [totalTracked]

theorem count_run_noTrans (bs : List (List Event)) :
    ∀ g c, noTransRun g bs = true →
      (produceRun g bs).1.to_disable.count c
        = g.to_disable.count c + totalTracked c g.passthrough bs := by
  induction bs with
  | nil => intro g c _; simp [produceRun, totalTracked]
  | cons b bs ih =>
    intro g c h
    unfold noTransRun at h
    simp only [Bool.and_eq_true] at h
    obtain ⟨h1, h2⟩ := h
    have hT : isTransition g b = false := by simpa using h1
    have hdis := to_disable_produce_noTrans g b hT
    have hpt := (produce_config_fields g b).2
    rw [produceRun_cons]
    have := ih (g.produce b).1 c h2
    rw [hdis, hpt, List.count_append] at this
    rw [this, totalTracked_cons]
    omega

theorem releases_count_transition (g : SelectivePasshtrough) (b : List Event)
    (c : String) (hT : isTransition g b = true) (hpt : c ∉ g.passthrough) :
    (g.produce b).2.count (mkRelease c)
      = g.to_disable.count c + (trackedCodes g.passthrough b).count c := by
  obtain ⟨hst, hH⟩ := (isTransition_iff g b).mp hT
  rw [produce_transition g b hst hH, List.count_append]
  rw [List.count_eq_zero.mpr (mkRelease_not_mem_outFilter g.passthrough b c hpt)]
  rw [List.map_append, List.count_append]
  rw [List.count_map_of_injective _ _ mkRelease_injective,
    List.count_map_of_injective _ _ mkRelease_injective]
  omega

theorem loopProduce_foldl (devs : List Dev) (fdOwner : Nat → Nat) (r : List Nat) :
    ∀ init : List Event,
      devs.foldl
        (fun evs d => if d.idd ∈ toRun fdOwner r then evs ++ d.prodFn r else evs) init
      = init ++ (devs.map
          (fun d => if d.idd ∈ toRun fdOwner r then d.prodFn r else [])).flatten := by
  induction devs with
  | nil => intro init; simp
  | cons d devs ih =>
    intro init
    rw [List.foldl_cons]
    by_cases hd : d.idd ∈ toRun fdOwner r
    · rw [if_pos hd, ih]
      simp [hd, List.append_assoc]
    · rw [if_neg hd, ih]
      simp [hd]

theorem loopCalls_foldl (devs : List Dev) (fdOwner : Nat → Nat) (r : List Nat) :
    ∀ init : List Nat,
      devs.foldl
        (fun cs d => if d.idd ∈ toRun fdOwner r then cs ++ [d.idd] else cs) init
      = init ++ (devs.filter
          (fun d => decide (d.idd ∈ toRun fdOwner r))).map Dev.idd := by
  induction devs with
  | nil => intro init; simp
  | cons d devs ih =>
    intro init
    rw [List.foldl_cons]
    by_cases hd : d.idd ∈ toRun fdOwner r
    · rw [if_pos hd, ih]
      simp [hd, List.append_assoc]
    · rw [if_neg hd, ih]
      simp [hd]

theorem loopProduce_eq (devs : List Dev) (fdOwner : Nat → Nat) (r : List Nat) :
    loopProduce devs fdOwner r
      = (devs.map
          (fun d => if d.idd ∈ toRun fdOwner r then d.prodFn r else [])).flatten := by
  unfold loopProduce
  rw [loopProduce_foldl]
  simp

theorem loopCalls_eq (devs : List Dev) (fdOwner : Nat → Nat) (r : List Nat) :
    loopCalls devs fdOwner r
      = (devs.filter (fun d => decide (d.idd ∈ toRun fdOwner r))).map Dev.idd := by
  unfold loopCalls
  rw [loopCalls_foldl]
  simp

theorem loopProduce_no_ready (devs : List Dev) (fdOwner : Nat → Nat) :
    loopProduce devs fdOwner [] = [] := by
  induction devs with
  | nil => rfl
  | cons d devs ih =>
    unfold loopProduce at *
    rw [List.foldl_cons]
    have hd : d.idd ∉ toRun fdOwner [] := by simp [toRun]
    rw [if_neg hd]
    exact ih

/-- Claim C4: for every input batch for which held (self.state) is true
after the gate processes the batch, produce returns exactly the unmodified
input batch, regardless of the allow-list contents, while the
pending_release bookkeeping for that batch still runs: the tracked presses
of the batch are appended to to_disable. -/
theorem C4_raw_bypass_identity (g : SelectivePasshtrough) (evs : List Event)
    (h : heldAfter g.forward_buttons g.state evs = true) :
    (g.produce evs).2 = evs ∧
    (g.produce evs).1.to_disable
      = g.to_disable ++ trackedCodes g.passthrough evs := by
  rw [produce_raw g evs h]
  exact ⟨rfl, rfl⟩

def gC4 : SelectivePasshtrough := ⟨["mode", "share"], ["ok"], false, []⟩

def evsC4 : List Event :=
  [Event.button "mode" (some true), Event.button "x" (some true),
   Event.axis "ls_x" 5]

/-- Witness for C4 at a concrete batch that presses the modifier. -/
theorem C4_witness :
    heldAfter gC4.forward_buttons gC4.state evsC4 = true ∧
    ((gC4.produce evsC4).2 = evsC4 ∧
      (gC4.produce evsC4).1.to_disable
        = gC4.to_disable ++ trackedCodes gC4.passthrough evsC4) :=
  ⟨by decide, C4_raw_bypass_identity gC4 evsC4 (by decide)⟩

/-- Claim C5, amended: while held is false before and after the batch, the
gate's produce returns exactly the Configuration events plus the Button
events whose code is in the allow-list, in original relative order, with
no extra and no missing events; Axis events are dropped even when their
code is in the allow-list. -/
theorem C5_filtered_output (g : SelectivePasshtrough) (evs : List Event)
    (h1 : g.state = false)
    (h2 : heldAfter g.forward_buttons g.state evs = false) :
    (g.produce evs).2 = outFilter g.passthrough evs := by
  rw [produce_filtered g evs h1 h2]

def gC5 : SelectivePasshtrough := ⟨["mode"], ["x"], false, []⟩

def evsC5 : List Event := [Event.axis "x" 3]

/-- Counterexample to claim C5 as stated: with held false before and after
the batch, an Axis event whose code is in the allow-list is dropped by the
implementation, while the claim requires it in the output. -/
theorem C5_counterexample :
    (gC5.state = false ∧ (gC5.produce evsC5).1.state = false) ∧
    (gC5.produce evsC5).2 = [] ∧
    specFilteredOutput gC5.passthrough evsC5 = [Event.axis "x" 3] := by
  decide

def gC5w : SelectivePasshtrough := ⟨["mode"], ["x"], false, []⟩

def evsC5w : List Event :=
  [Event.configuration "led", Event.button "x" (some true),
   Event.button "y" (some true), Event.axis "x" 7]

/-- Witness for the amended C5 at a concrete filtered-mode batch. -/
theorem C5_witness :
    (gC5w.state = false ∧
      heldAfter gC5w.forward_buttons gC5w.state evsC5w = false) ∧
    (gC5w.produce evsC5w).2 = outFilter gC5w.passthrough evsC5w :=
  ⟨⟨rfl, by decide⟩, C5_filtered_output gC5w evsC5w rfl (by decide)⟩

/-- Claim C9: the gate's consume forwards every event batch unchanged to
the wrapped parent Sink, for every batch and in every gate mode: the gate
state (held and pending_release) is neither read nor written by consume. -/
theorem C9_consume_transparent :
    ∀ (g : SelectivePasshtrough) (parentLog : List (List Event))
      (events : List Event),
      (SelectivePasshtrough.consume g parentLog events).1 = g ∧
      (SelectivePasshtrough.consume g parentLog events).2
        = parentLog ++ [events] :=
  fun _ _ _ => ⟨rfl, rfl⟩

/-- Claim C8: the supervisor in main terminates on KeyboardInterrupt,
restarts discovery after a fixed ERROR_DELAY backoff on any other escaped
error, and controller_loop_xinput re-raises the exception (running its
close-all finally block) rather than treating the user interrupt as an
error. -/
theorem C8_supervisor_policy :
    supervisorHandle Exc.keyboardInterrupt = SupAction.terminate ∧
    (∀ m : String,
        supervisorHandle (Exc.error m) = SupAction.backoffRestart ERROR_DELAY) ∧
    (∀ e : Exc,
        (controllerLoopExit e).raised = some e ∧
        (controllerLoopExit e).closedAll = true) := by
  refine ⟨rfl, fun _ => rfl, fun e => ?_⟩
  cases e <;> exact ⟨rfl, rfl⟩

/-- Claim C2, code-bug evidence: SelectivePasshtrough.close delegates to
the generic base-class close via super().close(exit) instead of calling
self.parent.close(exit), so closing the gate leaves the wrapped raw Source
open, while a direct parent close would close it. -/
theorem C2_gate_close_skips_parent :
    (gateClose ⟨true⟩ true).1.isOpen = true ∧
    (RawParent.close ⟨true⟩ true).1.isOpen = false :=
  ⟨rfl, rfl⟩

/-- Claim C1: at a RAW to FILTERED transition (held true on entry, false
after the scan) produce returns the filtered accumulator plus one
synthesized release (value false) for every code currently in to_disable,
in list order, and to_disable is empty afterwards; consequently every
tracked non-allow-listed button press has its matching release emitted no
later than the first transition batch at or after it. -/
theorem C1_transition_flush :
    (∀ (g : SelectivePasshtrough) (evs : List Event),
        g.state = true → heldAfter g.forward_buttons g.state evs = false →
        (g.produce evs).2
            = outFilter g.passthrough evs
              ++ (g.to_disable ++ trackedCodes g.passthrough evs).map mkRelease
          ∧ (g.produce evs).1.to_disable = []) ∧
    (∀ (g : SelectivePasshtrough) (b : List Event) (bs : List (List Event))
        (c : String) (k : Nat),
        c ∈ trackedCodes g.passthrough b →
        firstTransition g (b :: bs) = some k →
        mkRelease c ∈ ((produceRun g (b :: bs)).2.getD k [])) := by
  constructor
  · intro g evs h1 h2
    rw [produce_transition g evs h1 h2]
    exact ⟨rfl, rfl⟩
  · intro g b bs c k hc hk
    unfold firstTransition at hk
    by_cases hT : isTransition g b = true
    · rw [if_pos hT] at hk
      obtain rfl : (0 : Nat) = k := Option.some_inj.mp hk
      rw [produceRun_cons]
      simp only [List.getD_cons_zero]
      exact mem_release_of_transition g b c hT (List.mem_append_right _ hc)
    · rw [if_neg hT] at hk
      have hTf : isTransition g b = false := by simpa using hT
      cases hft : firstTransition (g.produce b).1 bs with
      | none => rw [hft] at hk; simp at hk
      | some j =>
        rw [hft] at hk
        obtain rfl : j + 1 = k := by simpa using hk
        have hc1 : c ∈ (g.produce b).1.to_disable := by
          rw [to_disable_produce_noTrans g b hTf]
          exact List.mem_append_right _ hc
        have hrec := release_run bs (g.produce b).1 c j hc1 hft
        rw [produceRun_cons]
        simpa only [List.getD_cons_succ] using hrec

def gC1 : SelectivePasshtrough := ⟨["mode"], ["ok"], true, ["x"]⟩

def bC1 : List Event := [Event.button "mode" (some false)]

def gC1b : SelectivePasshtrough := ⟨["mode"], ["ok"], false, []⟩

def bC1b : List Event :=
  [Event.button "y" (some true), Event.button "mode" (some true)]

def bsC1b : List (List Event) := [[Event.button "mode" (some false)]]

/-- Witness for C1: a concrete transition batch flushing a pending code,
and a concrete run in which a press tracked in batch 0 is released in the
transition output of batch 1. -/
theorem C1_witness :
    (gC1.state = true ∧ heldAfter gC1.forward_buttons gC1.state bC1 = false ∧
      ((gC1.produce bC1).2
          = outFilter gC1.passthrough bC1
            ++ (gC1.to_disable ++ trackedCodes gC1.passthrough bC1).map mkRelease
        ∧ (gC1.produce bC1).1.to_disable = [])) ∧
    ("y" ∈ trackedCodes gC1b.passthrough bC1b ∧
      firstTransition gC1b (bC1b :: bsC1b) = some 1 ∧
      mkRelease "y" ∈ ((produceRun gC1b (bC1b :: bsC1b)).2.getD 1 [])) :=
  ⟨⟨rfl, by decide, C1_transition_flush.1 gC1 bC1 rfl (by decide)⟩,
   ⟨by decide, by decide,
     C1_transition_flush.2 gC1b bC1b bsC1b "y" 1 (by decide) (by decide)⟩⟩

/-- Claim C6, amended: across every produce call, a code is appended to
to_disable exactly for each Button event with value true whose code is not
in the allow-list (membership in the modifier set plays no role, so a
modifier code pressed while not allow-listed is also appended); to_disable
therefore only ever contains codes outside the allow-list. -/
theorem C6_pending_tracking :
    (∀ (g : SelectivePasshtrough) (evs : List Event),
        isTransition g evs = false →
        (g.produce evs).1.to_disable
          = g.to_disable ++ trackedCodes g.passthrough evs) ∧
    (∀ (g : SelectivePasshtrough) (evs : List Event),
        isTransition g evs = true → (g.produce evs).1.to_disable = []) ∧
    (∀ (g : SelectivePasshtrough) (evs : List Event) (c : String),
        (∀ d ∈ g.to_disable, d ∉ g.passthrough) →
        c ∈ (g.produce evs).1.to_disable → c ∉ g.passthrough) := by
  refine ⟨to_disable_produce_noTrans, to_disable_produce_trans, ?_⟩
  intro g evs c hinv hc
  by_cases hT : isTransition g evs = true
  · rw [to_disable_produce_trans g evs hT] at hc
    simp at hc
  · have hTf : isTransition g evs = false := by simpa using hT
    rw [to_disable_produce_noTrans g evs hTf] at hc
    rcases List.mem_append.mp hc with h | h
    · exact hinv c h
    · exact trackedCodes_not_passthrough g.passthrough evs c h

def gC6 : SelectivePasshtrough := ⟨["mode"], [], false, []⟩

/-- Counterexample to claim C6 as stated: a modifier button press whose
code is not in the allow-list does enter to_disable. -/
theorem C6_counterexample :
    "mode" ∈ gC6.forward_buttons ∧
    (gC6.produce [Event.button "mode" (some true)]).1.to_disable = ["mode"] := by
  decide

def gC6w : SelectivePasshtrough := ⟨["mode"], ["ok"], false, []⟩

def evsC6w : List Event :=
  [Event.button "x" (some true), Event.button "ok" (some true),
   Event.configuration "led"]

def gC6t : SelectivePasshtrough := ⟨["mode"], ["ok"], true, ["x"]⟩

def bC6t : List Event := [Event.button "mode" (some false)]

/-- Witness for the amended C6 at concrete batches. -/
theorem C6_witness :
    (isTransition gC6w evsC6w = false ∧
      (gC6w.produce evsC6w).1.to_disable
        = gC6w.to_disable ++ trackedCodes gC6w.passthrough evsC6w) ∧
    (isTransition gC6t bC6t = true ∧ (gC6t.produce bC6t).1.to_disable = []) ∧
    ((∀ d ∈ gC6w.to_disable, d ∉ gC6w.passthrough) ∧
      "x" ∈ (gC6w.produce evsC6w).1.to_disable ∧
      "x" ∉ gC6w.passthrough) :=
  ⟨⟨by decide, C6_pending_tracking.1 gC6w evsC6w (by decide)⟩,
   ⟨by decide, C6_pending_tracking.2.1 gC6t bC6t (by decide)⟩,
   ⟨by decide, by decide,
     C6_pending_tracking.2.2 gC6w evsC6w "x" (by decide) (by decide)⟩⟩

/-- Claim C10: to_disable is an ordered list, not a set: over any run of
produce calls without a transition, each tracked press of a code adds one
occurrence of it to to_disable, and at a transition the output contains
exactly one synthesized release per occurrence. -/
theorem C10_pending_multiset :
    (∀ (g : SelectivePasshtrough) (bs : List (List Event)) (c : String),
        noTransRun g bs = true →
        (produceRun g bs).1.to_disable.count c
          = g.to_disable.count c + totalTracked c g.passthrough bs) ∧
    (∀ (g : SelectivePasshtrough) (b : List Event) (c : String),
        isTransition g b = true → c ∉ g.passthrough →
        (g.produce b).2.count (mkRelease c)
          = g.to_disable.count c + (trackedCodes g.passthrough b).count c) :=
  ⟨fun g bs c h => count_run_noTrans bs g c h, releases_count_transition⟩

def gC10 : SelectivePasshtrough := ⟨["mode"], ["ok"], true, []⟩

def bsC10 : List (List Event) :=
  [[Event.button "x" (some true)], [Event.button "x" (some true)]]

def gC10b : SelectivePasshtrough := ⟨["mode"], ["ok"], true, ["x", "x"]⟩

def bC10b : List Event := [Event.button "mode" (some false)]

/-- Witness for C10: two presses of the same code accumulate two entries,
and the transition output carries two synthesized releases. -/
theorem C10_witness :
    (noTransRun gC10 bsC10 = true ∧
      (produceRun gC10 bsC10).1.to_disable.count "x"
        = gC10.to_disable.count "x" + totalTracked "x" gC10.passthrough bsC10) ∧
    (isTransition gC10b bC10b = true ∧ "x" ∉ gC10b.passthrough ∧
      (gC10b.produce bC10b).2.count (mkRelease "x")
        = gC10b.to_disable.count "x"
          + (trackedCodes gC10b.passthrough bC10b).count "x") :=
  ⟨⟨by decide, C10_pending_multiset.1 gC10 bsC10 "x" (by decide)⟩,
   ⟨by decide, by decide,
     C10_pending_multiset.2 gC10b bC10b "x" (by decide) (by decide)⟩⟩

/-- Claim C7: in every loop iteration, each registered device owning at
least one ready descriptor has produce called exactly once (never once per
ready descriptor), devices are visited in fixed registration order, and
their event batches are concatenated in that order, empty results
contributing nothing. -/
theorem C7_one_produce_per_source :
    (∀ (devs : List Dev) (fdOwner : Nat → Nat) (r : List Nat),
        loopProduce devs fdOwner r
          = (devs.map
              (fun d => if d.idd ∈ toRun fdOwner r then d.prodFn r
                        else [])).flatten) ∧
    (∀ (devs : List Dev) (fdOwner : Nat → Nat) (r : List Nat) (d : Dev),
        (devs.map Dev.idd).Nodup → d ∈ devs →
        (loopCalls devs fdOwner r).count d.idd
          = if d.idd ∈ toRun fdOwner r then 1 else 0) := by
  refine ⟨loopProduce_eq, ?_⟩
  intro devs fdOwner r d hnd hd
  rw [loopCalls_eq]
  by_cases hin : d.idd ∈ toRun fdOwner r
  · rw [if_pos hin]
    have hdf : d ∈ devs.filter (fun d2 => decide (d2.idd ∈ toRun fdOwner r)) :=
      List.mem_filter.mpr ⟨hd, by simpa using hin⟩
    have hmm : d.idd ∈ (devs.filter
        (fun d2 => decide (d2.idd ∈ toRun fdOwner r))).map Dev.idd :=
      List.mem_map_of_mem _ hdf
    have hsub : ((devs.filter
        (fun d2 => decide (d2.idd ∈ toRun fdOwner r))).map Dev.idd).Sublist
          (devs.map Dev.idd) :=
      (List.filter_sublist devs).map Dev.idd
    exact List.count_eq_one_of_mem (hnd.sublist hsub) hmm
  · rw [if_neg hin]
    refine List.count_eq_zero.mpr ?_
    intro hmm
    obtain ⟨d2, hd2, he⟩ := List.mem_map.mp hmm
    have h2 : d2.idd ∈ toRun fdOwner r := by
      simpa using List.of_mem_filter hd2
    rw [he] at h2
    exact hin h2

def devA : Dev := ⟨0, fun _ => [Event.configuration "led"]⟩

def devB : Dev := ⟨1, fun _ => []⟩

def devsC7 : List Dev := [devA, devB]

def ownC7 : Nat → Nat := fun f => if f = 10 ∨ f = 11 then 0 else 1

/-- Witness for C7: a device owning two ready descriptors still gets
exactly one produce call. -/
theorem C7_witness :
    ((devsC7.map Dev.idd).Nodup ∧ devA ∈ devsC7) ∧
    (loopCalls devsC7 ownC7 [10, 11]).count devA.idd
      = if devA.idd ∈ toRun ownC7 [10, 11] then 1 else 0 :=
  ⟨⟨by decide, List.mem_cons_self _ _⟩,
   C7_one_produce_per_source.2 devsC7 ownC7 [10, 11] devA (by decide)
     (List.mem_cons_self _ _)⟩

/-- Claim C3, amended: every iteration lasts at least REPORT_DELAY_MIN =
1 / REPORT_FREQ_MAX thanks to the end-of-iteration sleep, so the dispatch
rate never exceeds REPORT_FREQ_MAX; the readiness wait is bounded by
REPORT_DELAY_MAX = 1 / REPORT_FREQ_MIN, so the loop iterates at least
REPORT_FREQ_MIN times per second even with no hardware activity, but an
iteration dispatches to the Sinks only when the merged batch is non-empty:
with no ready descriptors it performs zero consume calls. -/
theorem C3_rate_and_dispatch :
    (∀ e : ℚ, 0 ≤ e → REPORT_DELAY_MIN ≤ iterDuration e) ∧
    (∀ t : ℚ, selectWait t ≤ REPORT_DELAY_MAX) ∧
    (REPORT_DELAY_MAX = 1 / REPORT_FREQ_MIN
      ∧ REPORT_DELAY_MIN = 1 / REPORT_FREQ_MAX) ∧
    (∀ (devs : List Dev) (fdOwner : Nat → Nat),
        sinkDispatches (loopProduce devs fdOwner []) = 0) ∧
    (∀ evs : List Event, evs ≠ [] → sinkDispatches evs = 3) := by
  refine ⟨?_, ?_, ⟨rfl, rfl⟩, ?_, ?_⟩
  · intro e he
    unfold iterDuration iterSleep
    by_cases h : e < REPORT_DELAY_MIN
    · rw [if_pos h]
      linarith
    · rw [if_neg h]
      linarith [not_lt.mp h]
  · intro t
    exact min_le_right _ _
  · intro devs fdOwner
    rw [loopProduce_no_ready]
    rfl
  · intro evs h
    have hne : evs.isEmpty = false := by
      cases evs with
      | nil => exact absurd rfl h
      | cons a l => rfl
    simp [sinkDispatches, hne]

/-- Counterexample to claim C3 as stated: in an iteration whose readiness
wait timed out with no ready descriptors, the merged batch is empty and
the loop performs zero Sink dispatches, even though a registered device
had events to offer; the claim requires the iteration to still dispatch to
the Sinks. -/
theorem C3_counterexample :
    sinkDispatches (loopProduce [devA] (fun _ => 0) []) = 0 := by
  rw [loopProduce_no_ready]
  rfl

/-- Witness for the amended C3 at concrete values. -/
theorem C3_witness :
    ((0 : ℚ) ≤ 0 ∧ REPORT_DELAY_MIN ≤ iterDuration 0) ∧
    (([Event.configuration "led"] : List Event) ≠ [] ∧
      sinkDispatches [Event.configuration "led"] = 3) :=
  ⟨⟨le_refl 0, C3_rate_and_dispatch.1 0 (le_refl 0)⟩,
   ⟨by decide,
     C3_rate_and_dispatch.2.2.2.2 [Event.configuration "led"] (by decide)⟩⟩
